import Mathlib

/-!
Shallow embedding of the vsock latency benchmark client
(`src/rust-tcp-latency/client.rs`) and proofs about its reliable
transfer loops, connection retry logic, and benchmark driver.

The transport primitives (`send`, `recv`, `socket`, `connect`) are
modelled by oracles: a list of per-call results for the transfer loops,
and a per-attempt outcome function for the connection manager.  Rust
panics (out-of-range slicing, `%` by zero, `.expect` on `Err`) are
modelled as explicit `panicked` / `panic` outcomes.
-/

namespace RustTcpLatency

/-- Result of one `send`/`recv` syscall as seen by the loops in
`client.rs`: `ok n` is `Ok(n)` (n bytes transferred), `eintr` is
`Err(nix::Error::Sys(EINTR))`, and `err e` is any other error whose
rendered message is `e`. -/
inductive XferRes where
  | ok (n : Nat)
  | eintr
  | err (e : String)
deriving DecidableEq

/-- Outcome of `send_loop` / `recv_loop`.  `stuck` means the supplied
finite oracle was exhausted while the `while` loop would still continue
(the real program would still be looping). -/
inductive LoopResult where
  | success
  | failure (e : String)
  | panicked (msg : String)
  | stuck
deriving DecidableEq

/-- `usize::MAX` on the 64-bit platform the client targets. -/
def USIZE_MAX : Nat := 2 ^ 64 - 1

/-- Message of the Rust panic raised by the out-of-range slice
`&buf[send_bytes..len]` when `len` exceeds the buffer length. -/
def sliceMsg : String := "range end index out of range for slice"

/-- Message of the Rust panic raised by `i % 0`. -/
def modZeroMsg : String := "attempt to calculate the remainder with a divisor of zero"

/-- The `while send_bytes < len` loop body of `send_loop`
(client.rs lines 48-55).  `s` is the running `send_bytes`; the second
component of the result is the final value of `send_bytes`. -/
def sendLoopAux (bufLen len : Nat) : List XferRes → Nat → LoopResult × Nat
  | [], s =>
    if s < len then
      if bufLen < len then (.panicked sliceMsg, s) else (.stuck, s)
    else (.success, s)
  | ev :: rest, s =>
    if s < len then
      if bufLen < len then (.panicked sliceMsg, s)
      else
        match ev with
        | .ok n => sendLoopAux bufLen len rest (s + n)
        | .eintr => sendLoopAux bufLen len rest s
        | .err e => (.failure e, s)
    else (.success, s)

/-- `send_loop` (client.rs lines 44-58): convert `len` from `u64` to
`usize` (an `Err` if it does not fit), then run the transfer loop from
offset 0. -/
def send_loop (bufLen len : Nat) (evs : List XferRes) : LoopResult :=
  if USIZE_MAX < len then .failure "out of range integral type conversion attempted"
  else (sendLoopAux bufLen len evs 0).1

/-- The `while recv_bytes < len` loop body of `recv_loop`
(client.rs lines 65-72); structurally identical to `sendLoopAux`. -/
def recvLoopAux (bufLen len : Nat) : List XferRes → Nat → LoopResult × Nat
  | [], s =>
    if s < len then
      if bufLen < len then (.panicked sliceMsg, s) else (.stuck, s)
    else (.success, s)
  | ev :: rest, s =>
    if s < len then
      if bufLen < len then (.panicked sliceMsg, s)
      else
        match ev with
        | .ok n => recvLoopAux bufLen len rest (s + n)
        | .eintr => recvLoopAux bufLen len rest s
        | .err e => (.failure e, s)
    else (.success, s)

/-- `recv_loop` (client.rs lines 61-75). -/
def recv_loop (bufLen len : Nat) (evs : List XferRes) : LoopResult :=
  if USIZE_MAX < len then .failure "out of range integral type conversion attempted"
  else (recvLoopAux bufLen len evs 0).1

/-- The hypothesis of the exact-transfer claim: every successful call in
the oracle transfers between 1 byte and the number of bytes still
missing at the point where it is consumed (starting from offset `s`). -/
def validEvents (len : Nat) : List XferRes → Nat → Bool
  | [], _ => true
  | .ok n :: rest, s =>
    (decide (s < len → 1 ≤ n ∧ n ≤ len - s)) && validEvents len rest (s + n)
  | .eintr :: rest, s => validEvents len rest s
  | .err _ :: rest, s => validEvents len rest s

/-- client.rs line 18. -/
def MAX_CONNECTION_ATTEMPTS : Nat := 5

/-- Outcome of one connection attempt: `sockErr` is a failure of the
`socket(...)` call, `connErr` a failure of `connect`, `connOk fd` a
successful `connect` on descriptor `fd`. -/
inductive AttemptRes where
  | sockErr (e : String)
  | connErr (e : String)
  | connOk (fd : Nat)
deriving DecidableEq

/-- `Result<VsockSocket, String>` of `vsock_connect`. -/
inductive CRes where
  | ok (fd : Nat)
  | error (msg : String)
deriving DecidableEq

/-- Result of `vsock_connect` instrumented with the number of socket
creations performed and the sequence of backoff sleeps (in seconds). -/
structure ConnectOutcome where
  result : CRes
  attempts : Nat
  sleeps : List Nat
deriving DecidableEq

/-- The `for i in 0..MAX_CONNECTION_ATTEMPTS` loop of `vsock_connect`
(client.rs lines 82-99).  `i` is the current attempt index, `remaining`
the attempts left, `errMsg` the current `err_msg`, `sleeps` the sleeps
performed so far (most recent first).  A `sockErr` propagates through
`?` and aborts the whole function immediately; a `connErr` records the
message and sleeps `1 << i` seconds before the next attempt. -/
def vsockConnectLoop (oracle : Nat → AttemptRes) : Nat → Nat → String → List Nat → ConnectOutcome
  | i, 0, errMsg, sleeps => ⟨.error errMsg, i, sleeps.reverse⟩
  | i, remaining + 1, _errMsg, sleeps =>
    match oracle i with
    | .sockErr e => ⟨.error ("Failed to create the socket: " ++ e), i + 1, sleeps.reverse⟩
    | .connOk fd => ⟨.ok fd, i + 1, sleeps.reverse⟩
    | .connErr e =>
      vsockConnectLoop oracle (i + 1) remaining ("Failed to connect: " ++ e) (2 ^ i :: sleeps)

/-- `vsock_connect` (client.rs lines 78-102). -/
def vsock_connect (cid port : Nat) (oracle : Nat → AttemptRes) : ConnectOutcome :=
  vsockConnectLoop oracle 0 MAX_CONNECTION_ATTEMPTS "" []

/-- Result of the measurement loop: a histogram summary built from the
recorded samples, a process-terminating panic, or `hung` when a
transfer-loop oracle ran dry mid-loop. -/
inductive DriverResult where
  | summary (samples : List Nat)
  | panic (msg : String)
  | hung
deriving DecidableEq

/-- client.rs line 116. -/
def progress_tracking_percentage (n_rounds : Nat) : Nat := n_rounds * 2 / 100

/-- The `for i in 0..(n_rounds * 2)` measurement loop (client.rs lines
130-146).  `r` counts the rounds left, `i` is the round index, `acc`
the samples recorded so far (most recent first).  Per round: `send_loop`
then `recv_loop` on the full buffers (`.expect` turns an `Err` into a
panic naming the failing operation), record `dur i` when
`i >= n_rounds`, then evaluate `i % P` which panics when `P = 0`.  The
second component counts completed round-trips. -/
def driverLoop (n P bufLen len : Nat) (sendEvs recvEvs : Nat → List XferRes) (dur : Nat → Nat) :
    Nat → Nat → List Nat → DriverResult × Nat
  | 0, _, acc => (.summary acc.reverse, 0)
  | r + 1, i, acc =>
    match send_loop bufLen len (sendEvs i) with
    | .failure e => (.panic ("Failed send loop.: " ++ e), 0)
    | .panicked m => (.panic m, 0)
    | .stuck => (.hung, 0)
    | .success =>
      match recv_loop bufLen len (recvEvs i) with
      | .failure e => (.panic ("Failed receive loop.: " ++ e), 0)
      | .panicked m => (.panic m, 0)
      | .stuck => (.hung, 0)
      | .success =>
        let acc2 := if n ≤ i then dur i :: acc else acc
        if P = 0 then (.panic modZeroMsg, 1)
        else
          let next := driverLoop n P bufLen len sendEvs recvEvs dur r (i + 1) acc2
          (next.1, next.2 + 1)

/-- One full measurement run over a live connection: buffers of length
`n_bytes`, target length `n_bytes`, `2 * n_rounds` rounds, progress
divisor `(n_rounds * 2) / 100`. -/
def driverRun (n_rounds n_bytes : Nat) (sendEvs recvEvs : Nat → List XferRes)
    (dur : Nat → Nat) : DriverResult × Nat :=
  driverLoop n_rounds (progress_tracking_percentage n_rounds) n_bytes n_bytes
    sendEvs recvEvs dur (n_rounds * 2) 0 []

/-- The samples the driver records over rounds `i, i+1, ..., i+r-1`:
`dur j` for exactly those `j` with `n ≤ j`. -/
def warmupSamples (n : Nat) (dur : Nat → Nat) : Nat → Nat → List Nat
  | _, 0 => []
  | i, r + 1 => (if n ≤ i then [dur i] else []) ++ warmupSamples n dur (i + 1) r

/-- Run configuration parsed by `config::parse_config()`; the client
reads `address`, `n_rounds` and `n_bytes`. -/
structure Config where
  address : String
  port : Nat
  n_rounds : Nat
  n_bytes : Nat

/-- Process-level outcome of `main`: summary printed, panic, transfer
loop hung, or still inside the outer connect-retry loop when the fuel
ran out. -/
inductive MainOutcome where
  | finished (samples : List Nat) (rounds : Nat)
  | panicked (msg : String)
  | hung
  | retrying
deriving DecidableEq

/-- The `while !connected` loop of `main` (client.rs lines 120-154).
`fuel` bounds the number of outer iterations considered, `it` indexes
them, `calls` records the `(cid, port)` argument of every
`vsock_connect` call made so far (most recent first).  Each iteration
calls `vsock_connect(16, 5001)`; on error it sleeps 1 s and retries, on
success it runs the measurement loop exactly once. -/
def mainLoop (n_rounds n_bytes : Nat) (connOracle : Nat → Nat → AttemptRes)
    (sendEvs recvEvs : Nat → Nat → List XferRes) (dur : Nat → Nat) :
    Nat → Nat → List (Nat × Nat) → MainOutcome × List (Nat × Nat)
  | 0, _, calls => (.retrying, calls.reverse)
  | fuel + 1, it, calls =>
    match (vsock_connect 16 5001 (connOracle it)).result with
    | .ok _ =>
      match driverRun n_rounds n_bytes (sendEvs it) (recvEvs it) dur with
      | (.summary samples, rounds) => (.finished samples rounds, ((16, 5001) :: calls).reverse)
      | (.panic m, _) => (.panicked m, ((16, 5001) :: calls).reverse)
      | (.hung, _) => (.hung, ((16, 5001) :: calls).reverse)
    | .error _ =>
      mainLoop n_rounds n_bytes connOracle sendEvs recvEvs dur fuel (it + 1) ((16, 5001) :: calls)

/-- Observable result of `main` (client.rs lines 104-155). -/
structure MainResult where
  outcome : MainOutcome
  connectCalls : List (Nat × Nat)
  printed : String

/-- `main`: prints the configured address, then runs the outer
connect-retry loop with the parsed `n_rounds` and `n_bytes`. -/
def mainModel (args : Config) (connOracle : Nat → Nat → AttemptRes)
    (sendEvs recvEvs : Nat → Nat → List XferRes) (dur : Nat → Nat) (fuel : Nat) : MainResult :=
  let r := mainLoop args.n_rounds args.n_bytes connOracle sendEvs recvEvs dur fuel 0 []
  ⟨r.1, r.2, "Connecting to the server " ++ args.address ++ "..."⟩

/-- Connection-attempt oracle whose first attempt fails at socket
creation and whose later attempts would connect successfully. -/
def c5_oracle : Nat → AttemptRes :=
  fun i => if i = 0 then .sockErr "Too many open files" else .connOk 3

/-- Connection-attempt oracle with two refused connects followed by a
successful one. -/
def c6_oracle : Nat → AttemptRes :=
  fun i => if i < 2 then .connErr "refused" else .connOk 7

/-! Helper lemmas about the transfer loops. -/

/-- If every successful call transfers at most the missing byte count,
the loop can finish successfully only with exactly `len` bytes
transferred. -/
theorem sendLoopAux_success_exact (bufLen len : Nat) :
    ∀ (evs : List XferRes) (s : Nat), validEvents len evs s = true → s ≤ len →
      (sendLoopAux bufLen len evs s).1 = LoopResult.success →
      (sendLoopAux bufLen len evs s).2 = len := by
  intro evs
  induction evs with
  | nil =>
    intro s hv hs hres
    by_cases h : s < len
    · by_cases hb : bufLen < len <;> simp [sendLoopAux, h, hb] at hres
    · simp [sendLoopAux, h]
      omega
  | cons ev rest ih =>
    intro s hv hs hres
    by_cases h : s < len
    · by_cases hb : bufLen < len
      · simp [sendLoopAux, h, hb] at hres
      · cases ev with
        | ok n =>
          simp only [validEvents, Bool.and_eq_true, decide_eq_true_eq] at hv
          have hn := hv.1 h
          simp only [sendLoopAux, if_pos h, if_neg hb] at hres ⊢
          exact ih (s + n) hv.2 (by omega) hres
        | eintr =>
          simp only [validEvents] at hv
          simp only [sendLoopAux, if_pos h, if_neg hb] at hres ⊢
          exact ih s hv hs hres
        | err e => simp [sendLoopAux, h, hb] at hres
    · simp [sendLoopAux, h]
      omega

/-- Mirror of `sendLoopAux_success_exact` for the receive loop. -/
theorem recvLoopAux_success_exact (bufLen len : Nat) :
    ∀ (evs : List XferRes) (s : Nat), validEvents len evs s = true → s ≤ len →
      (recvLoopAux bufLen len evs s).1 = LoopResult.success →
      (recvLoopAux bufLen len evs s).2 = len := by
  intro evs
  induction evs with
  | nil =>
    intro s hv hs hres
    by_cases h : s < len
    · by_cases hb : bufLen < len <;> simp [recvLoopAux, h, hb] at hres
    · simp [recvLoopAux, h]
      omega
  | cons ev rest ih =>
    intro s hv hs hres
    by_cases h : s < len
    · by_cases hb : bufLen < len
      · simp [recvLoopAux, h, hb] at hres
      · cases ev with
        | ok n =>
          simp only [validEvents, Bool.and_eq_true, decide_eq_true_eq] at hv
          have hn := hv.1 h
          simp only [recvLoopAux, if_pos h, if_neg hb] at hres ⊢
          exact ih (s + n) hv.2 (by omega) hres
        | eintr =>
          simp only [validEvents] at hv
          simp only [recvLoopAux, if_pos h, if_neg hb] at hres ⊢
          exact ih s hv hs hres
        | err e => simp [recvLoopAux, h, hb] at hres
    · simp [recvLoopAux, h]
      omega

/-- A send loop whose oracle holds no hard error never returns a
transfer failure. -/
theorem sendLoopAux_no_err_no_failure (bufLen len : Nat) :
    ∀ evs : List XferRes, (∀ ev ∈ evs, ∀ c, ev ≠ XferRes.err c) →
      ∀ (m : String) (s : Nat), (sendLoopAux bufLen len evs s).1 ≠ LoopResult.failure m := by
  intro evs
  induction evs with
  | nil =>
    intro _ m s
    by_cases h : s < len <;> by_cases hb : bufLen < len <;> simp [sendLoopAux, h, hb]
  | cons ev rest ih =>
    intro hno m s
    by_cases h : s < len
    · by_cases hb : bufLen < len
      · simp [sendLoopAux, h, hb]
      · cases ev with
        | ok n =>
          simpa only [sendLoopAux, if_pos h, if_neg hb] using
            ih (fun x hx => hno x (List.mem_cons_of_mem _ hx)) m (s + n)
        | eintr =>
          simpa only [sendLoopAux, if_pos h, if_neg hb] using
            ih (fun x hx => hno x (List.mem_cons_of_mem _ hx)) m s
        | err c => exact absurd rfl (hno (XferRes.err c) (List.mem_cons_self _ _) c)
    · simp [sendLoopAux, h]

/-- A receive loop whose oracle holds no hard error never returns a
transfer failure. -/
theorem recvLoopAux_no_err_no_failure (bufLen len : Nat) :
    ∀ evs : List XferRes, (∀ ev ∈ evs, ∀ c, ev ≠ XferRes.err c) →
      ∀ (m : String) (s : Nat), (recvLoopAux bufLen len evs s).1 ≠ LoopResult.failure m := by
  intro evs
  induction evs with
  | nil =>
    intro _ m s
    by_cases h : s < len <;> by_cases hb : bufLen < len <;> simp [recvLoopAux, h, hb]
  | cons ev rest ih =>
    intro hno m s
    by_cases h : s < len
    · by_cases hb : bufLen < len
      · simp [recvLoopAux, h, hb]
      · cases ev with
        | ok n =>
          simpa only [recvLoopAux, if_pos h, if_neg hb] using
            ih (fun x hx => hno x (List.mem_cons_of_mem _ hx)) m (s + n)
        | eintr =>
          simpa only [recvLoopAux, if_pos h, if_neg hb] using
            ih (fun x hx => hno x (List.mem_cons_of_mem _ hx)) m s
        | err c => exact absurd rfl (hno (XferRes.err c) (List.mem_cons_self _ _) c)
    · simp [recvLoopAux, h]

/-- C1: for every target length `len` and every transport oracle in
which each successful call transfers between 1 and the remaining byte
count, `send_loop` and `recv_loop` return success only with the
cumulative transferred byte count exactly `len` — never fewer, never
more. -/
theorem send_recv_loops_transfer_exactly_len (bufLen len : Nat) (sevs revs : List XferRes)
    (hvs : validEvents len sevs 0 = true) (hvr : validEvents len revs 0 = true) :
    (send_loop bufLen len sevs = LoopResult.success →
      (sendLoopAux bufLen len sevs 0).2 = len) ∧
    (recv_loop bufLen len revs = LoopResult.success →
      (recvLoopAux bufLen len revs 0).2 = len) := by
  constructor
  · intro h
    by_cases hu : USIZE_MAX < len
    · simp [send_loop, hu] at h
    · simp only [send_loop, if_neg hu] at h
      exact sendLoopAux_success_exact bufLen len sevs 0 hvs (Nat.zero_le len) h
  · intro h
    by_cases hu : USIZE_MAX < len
    · simp [recv_loop, hu] at h
    · simp only [recv_loop, if_neg hu] at h
      exact recvLoopAux_success_exact bufLen len revs 0 hvr (Nat.zero_le len) h

/-- C1 witness: on a 4-byte transfer split 2+1+1 both loops succeed
having transferred exactly 4 bytes. -/
theorem send_recv_loops_transfer_exactly_len_witness :
    (sendLoopAux 4 4 [XferRes.ok 2, XferRes.ok 1, XferRes.ok 1] 0).2 = 4 ∧
    (recvLoopAux 4 4 [XferRes.ok 2, XferRes.ok 1, XferRes.ok 1] 0).2 = 4 :=
  ⟨(send_recv_loops_transfer_exactly_len 4 4
      [XferRes.ok 2, XferRes.ok 1, XferRes.ok 1] [XferRes.ok 2, XferRes.ok 1, XferRes.ok 1]
      (by decide) (by decide)).1 (by decide),
   (send_recv_loops_transfer_exactly_len 4 4
      [XferRes.ok 2, XferRes.ok 1, XferRes.ok 1] [XferRes.ok 2, XferRes.ok 1, XferRes.ok 1]
      (by decide) (by decide)).2 (by decide)⟩

/-- C2: a peer that closes the stream early makes `recv` return
`Ok(0)` on every call; `recv_loop` then adds 0 to `recv_bytes` and
re-enters the loop, so after any number `k` of zero-byte reads it is
still looping (it never returns, in particular it never returns a
peer-closed failure). -/
theorem recv_loop_zero_reads_spin_forever :
    ∀ k : Nat, recv_loop 8 8 (List.replicate k (XferRes.ok 0)) = LoopResult.stuck := by
  have key : ∀ (k s : Nat), s < 8 →
      (recvLoopAux 8 8 (List.replicate k (XferRes.ok 0)) s).1 = LoopResult.stuck := by
    intro k
    induction k with
    | zero =>
      intro s hs
      simp [recvLoopAux, hs]
    | succ k ih =>
      intro s hs
      simpa [recvLoopAux, hs, List.replicate_succ] using ih s hs
  intro k
  have h8 : ¬ USIZE_MAX < 8 := by decide
  simp only [recv_loop, if_neg h8]
  exact key k 0 (by decide)

/-- C3: with `n_rounds = 10` the progress divisor `(n_rounds * 2) / 100`
is 0 and the very first round of the measurement loop evaluates
`i % 0`, which panics with a remainder-by-zero fault: the `P == 0` case
is not guarded. -/
theorem progress_divisor_zero_panics :
    progress_tracking_percentage 10 = 0 ∧
    (driverRun 10 8 (fun _ => [XferRes.ok 8]) (fun _ => [XferRes.ok 8]) (fun _ => 5)).1 =
      DriverResult.panic modZeroMsg := by
  decide

/-- C4: at any in-progress offset `s`, an EINTR result is treated as
zero bytes transferred and the loop retries the same offset (first two
equations); any other transport error aborts immediately with a failure
carrying the underlying cause (next two); and a run whose oracle has no
hard error never returns a failure, so EINTR alone never produces an
error (last two). -/
theorem eintr_retried_other_errors_abort (bufLen len s : Nat) (evs : List XferRes) (e : String)
    (hb : len ≤ bufLen) (hs : s < len) :
    sendLoopAux bufLen len (XferRes.eintr :: evs) s = sendLoopAux bufLen len evs s ∧
    recvLoopAux bufLen len (XferRes.eintr :: evs) s = recvLoopAux bufLen len evs s ∧
    sendLoopAux bufLen len (XferRes.err e :: evs) s = (LoopResult.failure e, s) ∧
    recvLoopAux bufLen len (XferRes.err e :: evs) s = (LoopResult.failure e, s) ∧
    ((∀ ev ∈ evs, ∀ c, ev ≠ XferRes.err c) →
      ∀ (m : String) (s0 : Nat), (sendLoopAux bufLen len evs s0).1 ≠ LoopResult.failure m) ∧
    ((∀ ev ∈ evs, ∀ c, ev ≠ XferRes.err c) →
      ∀ (m : String) (s0 : Nat), (recvLoopAux bufLen len evs s0).1 ≠ LoopResult.failure m) := by
  have hnb : ¬ bufLen < len := by omega
  refine ⟨?_, ?_, ?_, ?_, ?_, ?_⟩
  · simp [sendLoopAux, hs, hnb]
  · simp [recvLoopAux, hs, hnb]
  · simp [sendLoopAux, hs, hnb]
  · simp [recvLoopAux, hs, hnb]
  · exact fun hno m s0 => sendLoopAux_no_err_no_failure bufLen len evs hno m s0
  · exact fun hno m s0 => recvLoopAux_no_err_no_failure bufLen len evs hno m s0

/-- C4 witness: at offset 1 of a 4-byte transfer, an EINTR behaves
exactly like continuing with the rest of the oracle, and a hard error
aborts immediately carrying its cause. -/
theorem eintr_retried_other_errors_abort_witness :
    sendLoopAux 4 4 [XferRes.eintr, XferRes.ok 3] 1 = sendLoopAux 4 4 [XferRes.ok 3] 1 ∧
    sendLoopAux 4 4 [XferRes.err "EPIPE"] 1 = (LoopResult.failure "EPIPE", 1) ∧
    recvLoopAux 4 4 [XferRes.err "EPIPE"] 1 = (LoopResult.failure "EPIPE", 1) :=
  ⟨(eintr_retried_other_errors_abort 4 4 1 [XferRes.ok 3] "EPIPE" (by decide) (by decide)).1,
   (eintr_retried_other_errors_abort 4 4 1 [] "EPIPE" (by decide) (by decide)).2.2.1,
   (eintr_retried_other_errors_abort 4 4 1 [] "EPIPE" (by decide) (by decide)).2.2.2.1⟩

/-- C10: when the target length exceeds the buffer length (but fits
`usize`), both loops hit the out-of-range slice `buf[0..len]` on their
first iteration and panic; they do not return through their `Result`
error path. -/
theorem oversized_len_panics_not_error (bufLen len : Nat) (evs : List XferRes)
    (hu : len ≤ USIZE_MAX) (hb : bufLen < len) :
    send_loop bufLen len evs = LoopResult.panicked sliceMsg ∧
    recv_loop bufLen len evs = LoopResult.panicked sliceMsg ∧
    (∀ m, send_loop bufLen len evs ≠ LoopResult.failure m) ∧
    (∀ m, recv_loop bufLen len evs ≠ LoopResult.failure m) := by
  have hnu : ¬ USIZE_MAX < len := by omega
  have h0 : 0 < len := by omega
  have hsend : send_loop bufLen len evs = LoopResult.panicked sliceMsg := by
    cases evs with
    | nil => simp [send_loop, hnu, sendLoopAux, h0, hb]
    | cons ev rest => simp [send_loop, hnu, sendLoopAux, h0, hb]
  have hrecv : recv_loop bufLen len evs = LoopResult.panicked sliceMsg := by
    cases evs with
    | nil => simp [recv_loop, hnu, recvLoopAux, h0, hb]
    | cons ev rest => simp [recv_loop, hnu, recvLoopAux, h0, hb]
  refine ⟨hsend, hrecv, ?_, ?_⟩
  · intro m
    rw [hsend]
    simp
  · intro m
    rw [hrecv]
    simp

/-- C10 witness: a 4-byte target on 2-byte buffers panics at the slice
in both loops. -/
theorem oversized_len_panics_not_error_witness :
    send_loop 2 4 [] = LoopResult.panicked sliceMsg ∧
    recv_loop 2 4 [] = LoopResult.panicked sliceMsg :=
  ⟨(oversized_len_panics_not_error 2 4 [] (by decide) (by decide)).1,
   (oversized_len_panics_not_error 2 4 [] (by decide) (by decide)).2.1⟩

/-! Helper lemmas about the connection manager. -/

/-- Skipping a block of `j` consecutive failed connects: the loop
advances the attempt index by `j`, keeps the last connect error as the
message, and sleeps `2 ^ t` after the failed attempt with index `t`. -/
theorem vsockConnectLoop_skip_connErr (oracle : Nat → AttemptRes) (e : Nat → String) :
    ∀ (j i remaining : Nat) (msg : String) (sleeps : List Nat),
      j ≤ remaining → (∀ t, t < j → oracle (i + t) = AttemptRes.connErr (e (i + t))) →
      vsockConnectLoop oracle i remaining msg sleeps =
        vsockConnectLoop oracle (i + j) (remaining - j)
          (if j = 0 then msg else "Failed to connect: " ++ e (i + j - 1))
          (((List.range' i j).map (fun t => 2 ^ t)).reverse ++ sleeps) := by
  intro j
  induction j with
  | zero =>
    intro i remaining msg sleeps _ _
    simp
  | succ j ih =>
    intro i remaining msg sleeps hj hpre
    obtain ⟨r, rfl⟩ : ∃ r, remaining = r + 1 := ⟨remaining - 1, by omega⟩
    have h0 : oracle i = AttemptRes.connErr (e i) := by
      simpa using hpre 0 (Nat.succ_pos j)
    have step : vsockConnectLoop oracle i (r + 1) msg sleeps =
        vsockConnectLoop oracle (i + 1) r ("Failed to connect: " ++ e i) (2 ^ i :: sleeps) := by
      rw [vsockConnectLoop, h0]
    rw [step]
    have hpre2 : ∀ t, t < j → oracle (i + 1 + t) = AttemptRes.connErr (e (i + 1 + t)) := by
      intro t ht
      have h := hpre (t + 1) (by omega)
      have harith : i + (t + 1) = i + 1 + t := by omega
      rw [harith] at h
      exact h
    rw [ih (i + 1) r ("Failed to connect: " ++ e i) (2 ^ i :: sleeps) (by omega) hpre2]
    have hidx : i + 1 + j = i + (j + 1) := by omega
    have hrem : r - j = r + 1 - (j + 1) := by omega
    rw [hidx, hrem]
    have hmsg : (if j = 0 then "Failed to connect: " ++ e i
        else "Failed to connect: " ++ e (i + (j + 1) - 1)) =
        (if j + 1 = 0 then msg else "Failed to connect: " ++ e (i + (j + 1) - 1)) := by
      by_cases hj0 : j = 0
      · subst hj0
        simp
      · rw [if_neg hj0, if_neg (Nat.succ_ne_zero j)]
    have hsl : ((List.range' (i + 1) j).map (fun t => 2 ^ t)).reverse ++ (2 ^ i :: sleeps) =
        ((List.range' i (j + 1)).map (fun t => 2 ^ t)).reverse ++ sleeps := by
      rw [List.range'_succ]
      simp
    rw [hmsg, hsl]

/-- The loop never makes more attempts than it has remaining. -/
theorem vsockConnectLoop_attempts_le (oracle : Nat → AttemptRes) :
    ∀ (remaining i : Nat) (msg : String) (sleeps : List Nat),
      (vsockConnectLoop oracle i remaining msg sleeps).attempts ≤ i + remaining := by
  intro remaining
  induction remaining with
  | zero =>
    intro i msg sleeps
    simp [vsockConnectLoop]
  | succ r ih =>
    intro i msg sleeps
    cases h : oracle i with
    | sockErr e =>
      rw [vsockConnectLoop, h]
      show i + 1 ≤ i + (r + 1)
      omega
    | connOk fd =>
      rw [vsockConnectLoop, h]
      show i + 1 ≤ i + (r + 1)
      omega
    | connErr e =>
      rw [vsockConnectLoop, h]
      show (vsockConnectLoop oracle (i + 1) r ("Failed to connect: " ++ e)
        (2 ^ i :: sleeps)).attempts ≤ i + (r + 1)
      have := ih (i + 1) ("Failed to connect: " ++ e) (2 ^ i :: sleeps)
      omega

/-- Sum of the exponential backoff delays over `j` failed attempts. -/
theorem sum_backoff_pows (j : Nat) :
    ((List.range j).map (fun t => 2 ^ t)).sum = 2 ^ j - 1 := by
  induction j with
  | zero => simp
  | succ k ih =>
    rw [List.range_succ, List.map_append, List.sum_append]
    have h1 : 1 ≤ 2 ^ k := Nat.one_le_two_pow
    have h2 : 2 ^ (k + 1) = 2 ^ k + 2 ^ k := by
      rw [pow_succ, Nat.mul_two]
    simp only [List.map_cons, List.map_nil, List.sum_cons, List.sum_nil, ih]
    omega

/-- C5 counterexample: with an oracle whose attempt 0 fails at socket
creation while every later attempt would connect successfully,
`vsock_connect` nevertheless returns the creation error after a single
attempt, with no backoff sleep and without consuming the remaining
attempts — socket-creation failure does get special treatment. -/
theorem socket_failure_counterexample :
    c5_oracle 1 = AttemptRes.connOk 3 ∧
    vsock_connect 16 5001 c5_oracle =
      ⟨CRes.error "Failed to create the socket: Too many open files", 1, []⟩ := by
  decide

/-- C5 amended: a socket-creation failure on the attempt with zero-based
index `i` aborts the whole connect cycle immediately: `vsock_connect`
returns the creation error at once, having made only `i + 1` attempts
and slept only the backoffs of the preceding failed connects. -/
theorem socket_failure_aborts_whole_cycle (cid port i : Nat) (oracle : Nat → AttemptRes)
    (e : Nat → String) (msg : String)
    (hpre : ∀ t, t < i → oracle t = AttemptRes.connErr (e t))
    (hi : i < MAX_CONNECTION_ATTEMPTS) (hf : oracle i = AttemptRes.sockErr msg) :
    vsock_connect cid port oracle =
      ⟨CRes.error ("Failed to create the socket: " ++ msg), i + 1,
        (List.range i).map (fun t => 2 ^ t)⟩ := by
  rw [vsock_connect]
  rw [vsockConnectLoop_skip_connErr oracle e i 0 MAX_CONNECTION_ATTEMPTS "" []
    (by omega) (by intro t ht; simpa using hpre t ht)]
  obtain ⟨r, hr⟩ : ∃ r, MAX_CONNECTION_ATTEMPTS - i = r + 1 :=
    ⟨MAX_CONNECTION_ATTEMPTS - i - 1, by omega⟩
  rw [hr]
  have h0i : 0 + i = i := by omega
  rw [h0i, vsockConnectLoop, hf]
  rw [List.range_eq_range']
  simp

/-- C5 amended witness: socket creation fails on the very first attempt
and the whole cycle is aborted at once. -/
theorem socket_failure_aborts_whole_cycle_witness :
    vsock_connect 16 5001 c5_oracle =
      ⟨CRes.error "Failed to create the socket: Too many open files", 1, []⟩ :=
  socket_failure_aborts_whole_cycle 16 5001 0 c5_oracle (fun _ => "") "Too many open files"
    (by decide) (by decide) (by decide)

/-- C6: the connection manager makes at most 5 attempts; if the first
`j` connects fail it sleeps exactly `2 ^ t` seconds after the failed
attempt with index `t` (total `2 ^ j - 1`); a successful connect at
index `j < 5` returns the handle immediately after `j + 1` attempts;
and if all 5 attempts fail it returns a failure carrying the last
observed error message. -/
theorem vsock_connect_bounded_exponential_backoff (cid port j fd : Nat)
    (oracle : Nat → AttemptRes) (e : Nat → String)
    (hpre : ∀ t, t < j → oracle t = AttemptRes.connErr (e t)) :
    (∀ o2 : Nat → AttemptRes,
      (vsock_connect cid port o2).attempts ≤ MAX_CONNECTION_ATTEMPTS) ∧
    (j < MAX_CONNECTION_ATTEMPTS → oracle j = AttemptRes.connOk fd →
      vsock_connect cid port oracle =
        ⟨CRes.ok fd, j + 1, (List.range j).map (fun t => 2 ^ t)⟩) ∧
    (j = MAX_CONNECTION_ATTEMPTS →
      vsock_connect cid port oracle =
        ⟨CRes.error ("Failed to connect: " ++ e 4), 5,
          (List.range 5).map (fun t => 2 ^ t)⟩) ∧
    ((List.range j).map (fun t => 2 ^ t)).sum = 2 ^ j - 1 := by
  refine ⟨?_, ?_, ?_, sum_backoff_pows j⟩
  · intro o2
    simpa using vsockConnectLoop_attempts_le o2 MAX_CONNECTION_ATTEMPTS 0 "" []
  · intro hj hok
    rw [vsock_connect]
    rw [vsockConnectLoop_skip_connErr oracle e j 0 MAX_CONNECTION_ATTEMPTS "" []
      (by omega) (by intro t ht; simpa using hpre t ht)]
    obtain ⟨r, hr⟩ : ∃ r, MAX_CONNECTION_ATTEMPTS - j = r + 1 :=
      ⟨MAX_CONNECTION_ATTEMPTS - j - 1, by omega⟩
    rw [hr]
    have h0j : 0 + j = j := by omega
    rw [h0j, vsockConnectLoop, hok]
    rw [List.range_eq_range']
    simp
  · intro hj
    subst hj
    rw [vsock_connect]
    rw [vsockConnectLoop_skip_connErr oracle e MAX_CONNECTION_ATTEMPTS 0 MAX_CONNECTION_ATTEMPTS
      "" [] (by omega) (by intro t ht; simpa using hpre t ht)]
    rw [List.range_eq_range']
    simp [vsockConnectLoop, MAX_CONNECTION_ATTEMPTS]

/-- C6 witness: two refused connects then a successful one: 3 attempts,
sleeps of 1 s and 2 s, and the handle is returned immediately. -/
theorem vsock_connect_bounded_exponential_backoff_witness :
    vsock_connect 16 5001 c6_oracle = ⟨CRes.ok 7, 3, [1, 2]⟩ ∧
    ((List.range 2).map (fun t => 2 ^ t)).sum = 2 ^ 2 - 1 :=
  ⟨(vsock_connect_bounded_exponential_backoff 16 5001 2 7 c6_oracle (fun _ => "refused")
      (by decide)).2.1 (by decide) (by decide),
   (vsock_connect_bounded_exponential_backoff 16 5001 2 7 c6_oracle (fun _ => "refused")
      (by decide)).2.2.2⟩

/-! Helper lemmas about the benchmark driver and `main`. -/

/-- A block of rounds in which every transfer succeeds runs to the end,
appending exactly the post-warm-up samples and completing every
round-trip. -/
theorem driverLoop_all_success (n P bufLen len : Nat) (sendEvs recvEvs : Nat → List XferRes)
    (dur : Nat → Nat) (hP : P ≠ 0) :
    ∀ (r i : Nat) (acc : List Nat),
      (∀ j, i ≤ j → j < i + r → send_loop bufLen len (sendEvs j) = LoopResult.success) →
      (∀ j, i ≤ j → j < i + r → recv_loop bufLen len (recvEvs j) = LoopResult.success) →
      driverLoop n P bufLen len sendEvs recvEvs dur r i acc =
        (DriverResult.summary (acc.reverse ++ warmupSamples n dur i r), r) := by
  intro r
  induction r with
  | zero =>
    intro i acc _ _
    simp [driverLoop, warmupSamples]
  | succ r ih =>
    intro i acc hs hr
    have hsi : send_loop bufLen len (sendEvs i) = LoopResult.success :=
      hs i (le_refl i) (by omega)
    have hri : recv_loop bufLen len (recvEvs i) = LoopResult.success :=
      hr i (le_refl i) (by omega)
    rw [driverLoop, hsi, hri]
    have ihnext := ih (i + 1) (if n ≤ i then dur i :: acc else acc)
      (fun j h1 h2 => hs j (by omega) (by omega))
      (fun j h1 h2 => hr j (by omega) (by omega))
    simp only [if_neg hP, ihnext]
    by_cases hni : n ≤ i
    · simp [warmupSamples, hni, List.append_assoc]
    · simp [warmupSamples, hni]

/-- Rounds entirely inside the warm-up half record no samples. -/
theorem warmupSamples_below (n : Nat) (dur : Nat → Nat) :
    ∀ (r i : Nat), i + r ≤ n → warmupSamples n dur i r = [] := by
  intro r
  induction r with
  | zero =>
    intro i _
    rfl
  | succ r ih =>
    intro i h
    have hni : ¬ n ≤ i := by omega
    simp [warmupSamples, hni, ih (i + 1) (by omega)]

/-- Rounds entirely inside the measuring half record every duration. -/
theorem warmupSamples_above (n : Nat) (dur : Nat → Nat) :
    ∀ (r i : Nat), n ≤ i → warmupSamples n dur i r = (List.range' i r).map dur := by
  intro r
  induction r with
  | zero =>
    intro i _
    rfl
  | succ r ih =>
    intro i h
    rw [List.range'_succ]
    simp [warmupSamples, h, ih (i + 1) (by omega)]

/-- Splitting a block of rounds splits the recorded samples. -/
theorem warmupSamples_split (n : Nat) (dur : Nat → Nat) :
    ∀ (a i b : Nat), warmupSamples n dur i (a + b) =
      warmupSamples n dur i a ++ warmupSamples n dur (i + a) b := by
  intro a
  induction a with
  | zero =>
    intro i b
    simp [warmupSamples, Nat.zero_add]
  | succ a ih =>
    intro i b
    have harith : a + 1 + b = (a + b) + 1 := by omega
    rw [harith]
    show warmupSamples n dur i (a + b + 1) = _
    rw [warmupSamples, warmupSamples, ih (i + 1) b]
    have harith2 : i + 1 + a = i + (a + 1) := by omega
    rw [harith2, List.append_assoc]

/-- Over the full `2 * n` rounds, the recorded samples are exactly the
durations of rounds `n, n+1, ..., 2n-1`. -/
theorem warmupSamples_full (n : Nat) (dur : Nat → Nat) :
    warmupSamples n dur 0 (n * 2) = (List.range' n n).map dur := by
  have h2 : n * 2 = n + n := by omega
  rw [h2, warmupSamples_split n dur n 0 n]
  rw [warmupSamples_below n dur n 0 (by omega)]
  rw [warmupSamples_above n dur n (0 + n) (by omega)]
  simp

/-- C7: in a full run the driver performs exactly `2 * n_rounds`
round-trips, and exactly the rounds with index `i ≥ n_rounds`
contribute a latency sample — the samples handed to the histogram are
the durations of rounds `n_rounds, ..., 2*n_rounds - 1`, `n_rounds` of
them; the first half is executed but discarded. -/
theorem driver_runs_double_rounds_measures_second_half (n n_bytes : Nat)
    (sendEvs recvEvs : Nat → List XferRes) (dur : Nat → Nat)
    (hP : progress_tracking_percentage n ≠ 0)
    (hs : ∀ i, i < n * 2 → send_loop n_bytes n_bytes (sendEvs i) = LoopResult.success)
    (hr : ∀ i, i < n * 2 → recv_loop n_bytes n_bytes (recvEvs i) = LoopResult.success) :
    driverRun n n_bytes sendEvs recvEvs dur =
      (DriverResult.summary ((List.range' n n).map dur), n * 2) ∧
    ((List.range' n n).map dur).length = n := by
  constructor
  · rw [driverRun]
    rw [driverLoop_all_success n (progress_tracking_percentage n) n_bytes n_bytes
      sendEvs recvEvs dur hP (n * 2) 0 []
      (fun j h1 h2 => hs j (by omega)) (fun j h1 h2 => hr j (by omega))]
    rw [warmupSamples_full]
    rfl
  · simp

/-- C7 witness: 50 measured rounds over 1-byte payloads give exactly
100 executed round-trips and the 50 samples of rounds 50–99. -/
theorem driver_runs_double_rounds_measures_second_half_witness :
    progress_tracking_percentage 50 ≠ 0 ∧
    driverRun 50 1 (fun _ => [XferRes.ok 1]) (fun _ => [XferRes.ok 1]) (fun i => i) =
      (DriverResult.summary ((List.range' 50 50).map (fun i => i)), 50 * 2) :=
  ⟨by decide,
   (driver_runs_double_rounds_measures_second_half 50 1
      (fun _ => [XferRes.ok 1]) (fun _ => [XferRes.ok 1]) (fun i => i)
      (by decide) (by decide) (by decide)).1⟩

/-- If every round before `k` succeeds and the send of round `k` fails,
the driver panics at round `k` naming the send operation and its
cause. -/
theorem driverLoop_send_failure_panics (n P bufLen len : Nat)
    (sendEvs recvEvs : Nat → List XferRes) (dur : Nat → Nat) (k : Nat) (e : String)
    (hP : P ≠ 0) (hfk : send_loop bufLen len (sendEvs k) = LoopResult.failure e) :
    ∀ (r i : Nat) (acc : List Nat), i ≤ k → k < i + r →
      (∀ j, i ≤ j → j < k → send_loop bufLen len (sendEvs j) = LoopResult.success) →
      (∀ j, i ≤ j → j < k → recv_loop bufLen len (recvEvs j) = LoopResult.success) →
      (driverLoop n P bufLen len sendEvs recvEvs dur r i acc).1 =
        DriverResult.panic ("Failed send loop.: " ++ e) := by
  intro r
  induction r with
  | zero =>
    intro i acc h1 h2 _ _
    omega
  | succ r ih =>
    intro i acc h1 h2 hs hr
    by_cases hik : i = k
    · subst hik
      rw [driverLoop, hfk]
    · have hsi : send_loop bufLen len (sendEvs i) = LoopResult.success :=
        hs i (le_refl i) (by omega)
      have hri : recv_loop bufLen len (recvEvs i) = LoopResult.success :=
        hr i (le_refl i) (by omega)
      rw [driverLoop, hsi, hri]
      simp only [if_neg hP]
      exact ih (i + 1) (if n ≤ i then dur i :: acc else acc) (by omega) (by omega)
        (fun j hj1 hj2 => hs j (by omega) hj2) (fun j hj1 hj2 => hr j (by omega) hj2)

/-- If every round before `k` succeeds and at round `k` the send
succeeds but the receive fails, the driver panics at round `k` naming
the receive operation and its cause. -/
theorem driverLoop_recv_failure_panics (n P bufLen len : Nat)
    (sendEvs recvEvs : Nat → List XferRes) (dur : Nat → Nat) (k : Nat) (e : String)
    (hP : P ≠ 0) (hsk : send_loop bufLen len (sendEvs k) = LoopResult.success)
    (hfk : recv_loop bufLen len (recvEvs k) = LoopResult.failure e) :
    ∀ (r i : Nat) (acc : List Nat), i ≤ k → k < i + r →
      (∀ j, i ≤ j → j < k → send_loop bufLen len (sendEvs j) = LoopResult.success) →
      (∀ j, i ≤ j → j < k → recv_loop bufLen len (recvEvs j) = LoopResult.success) →
      (driverLoop n P bufLen len sendEvs recvEvs dur r i acc).1 =
        DriverResult.panic ("Failed receive loop.: " ++ e) := by
  intro r
  induction r with
  | zero =>
    intro i acc h1 h2 _ _
    omega
  | succ r ih =>
    intro i acc h1 h2 hs hr
    by_cases hik : i = k
    · subst hik
      rw [driverLoop, hsk, hfk]
    · have hsi : send_loop bufLen len (sendEvs i) = LoopResult.success :=
        hs i (le_refl i) (by omega)
      have hri : recv_loop bufLen len (recvEvs i) = LoopResult.success :=
        hr i (le_refl i) (by omega)
      rw [driverLoop, hsi, hri]
      simp only [if_neg hP]
      exact ih (i + 1) (if n ≤ i then dur i :: acc else acc) (by omega) (by omega)
        (fun j hj1 hj2 => hs j (by omega) hj2) (fun j hj1 hj2 => hr j (by omega) hj2)

/-- C8: any failing `send_loop` or `recv_loop` in the measurement loop
turns into a process-terminating panic naming the failing operation
(`"Failed send loop."` or `"Failed receive loop."`) and its underlying
cause; no histogram summary is emitted, and the outer connect-retry
loop is not re-entered (exactly one `vsock_connect` call is made).  The
disjunctive hypothesis `hf` picks out the first failing operation of
round `k`: either its send fails, or its send succeeds and its receive
fails. -/
theorem midrun_transfer_failure_is_fatal (args : Config) (connOracle : Nat → Nat → AttemptRes)
    (sendEvs recvEvs : Nat → Nat → List XferRes) (dur : Nat → Nat) (fuel k fd : Nat)
    (e msg : String)
    (hconn : (vsock_connect 16 5001 (connOracle 0)).result = CRes.ok fd)
    (hP : progress_tracking_percentage args.n_rounds ≠ 0)
    (hk : k < args.n_rounds * 2)
    (hs : ∀ i, i < k →
      send_loop args.n_bytes args.n_bytes (sendEvs 0 i) = LoopResult.success)
    (hr : ∀ i, i < k →
      recv_loop args.n_bytes args.n_bytes (recvEvs 0 i) = LoopResult.success)
    (hf : (send_loop args.n_bytes args.n_bytes (sendEvs 0 k) = LoopResult.failure e ∧
            msg = "Failed send loop.: " ++ e) ∨
          (send_loop args.n_bytes args.n_bytes (sendEvs 0 k) = LoopResult.success ∧
            recv_loop args.n_bytes args.n_bytes (recvEvs 0 k) = LoopResult.failure e ∧
            msg = "Failed receive loop.: " ++ e))
    (hfuel : 0 < fuel) :
    (driverRun args.n_rounds args.n_bytes (sendEvs 0) (recvEvs 0) dur).1 =
      DriverResult.panic msg ∧
    (mainModel args connOracle sendEvs recvEvs dur fuel).outcome =
      MainOutcome.panicked msg ∧
    (mainModel args connOracle sendEvs recvEvs dur fuel).connectCalls = [(16, 5001)] ∧
    (∀ (smp : List Nat) (r2 : Nat),
      (mainModel args connOracle sendEvs recvEvs dur fuel).outcome ≠
        MainOutcome.finished smp r2) := by
  have hdrv : (driverRun args.n_rounds args.n_bytes (sendEvs 0) (recvEvs 0) dur).1 =
      DriverResult.panic msg := by
    rcases hf with ⟨hfs, rfl⟩ | ⟨hsk, hfr, rfl⟩
    · rw [driverRun]
      exact driverLoop_send_failure_panics args.n_rounds
        (progress_tracking_percentage args.n_rounds) args.n_bytes args.n_bytes
        (sendEvs 0) (recvEvs 0) dur k e hP hfs
        (args.n_rounds * 2) 0 [] (by omega) (by omega)
        (fun j h1 h2 => hs j h2) (fun j h1 h2 => hr j h2)
    · rw [driverRun]
      exact driverLoop_recv_failure_panics args.n_rounds
        (progress_tracking_percentage args.n_rounds) args.n_bytes args.n_bytes
        (sendEvs 0) (recvEvs 0) dur k e hP hsk hfr
        (args.n_rounds * 2) 0 [] (by omega) (by omega)
        (fun j h1 h2 => hs j h2) (fun j h1 h2 => hr j h2)
  obtain ⟨f, rfl⟩ : ∃ f, fuel = f + 1 := ⟨fuel - 1, by omega⟩
  rcases hdd : driverRun args.n_rounds args.n_bytes (sendEvs 0) (recvEvs 0) dur with ⟨dres, cnt⟩
  rw [hdd] at hdrv
  have hdres : dres = DriverResult.panic msg := hdrv
  subst hdres
  have houtcome : (mainModel args connOracle sendEvs recvEvs dur (f + 1)).outcome =
      MainOutcome.panicked msg := by
    show (mainLoop args.n_rounds args.n_bytes connOracle sendEvs recvEvs dur (f + 1) 0 []).1 = _
    rw [mainLoop, hconn, hdd]
  have hcalls : (mainModel args connOracle sendEvs recvEvs dur (f + 1)).connectCalls =
      [(16, 5001)] := by
    show (mainLoop args.n_rounds args.n_bytes connOracle sendEvs recvEvs dur (f + 1) 0 []).2 = _
    rw [mainLoop, hconn, hdd]
    rfl
  refine ⟨hdrv, houtcome, hcalls, ?_⟩
  intro smp r2
  rw [houtcome]
  simp

/-- C8 witness, both failing operations: with the first connect
succeeding, a run whose first send fails dies with a panic naming the
send loop, and a run whose first send succeeds but whose first receive
fails dies with a panic naming the receive loop — each after exactly
one connect cycle and with no summary. -/
theorem midrun_transfer_failure_is_fatal_witness :
    ((mainModel ⟨"server", 5001, 50, 1⟩ (fun _ _ => AttemptRes.connOk 3)
        (fun _ _ => [XferRes.err "ECONNRESET"]) (fun _ _ => [XferRes.ok 1])
        (fun _ => 0) 1).outcome =
      MainOutcome.panicked ("Failed send loop.: " ++ "ECONNRESET") ∧
     (mainModel ⟨"server", 5001, 50, 1⟩ (fun _ _ => AttemptRes.connOk 3)
        (fun _ _ => [XferRes.err "ECONNRESET"]) (fun _ _ => [XferRes.ok 1])
        (fun _ => 0) 1).connectCalls = [(16, 5001)]) ∧
    ((mainModel ⟨"server", 5001, 50, 1⟩ (fun _ _ => AttemptRes.connOk 3)
        (fun _ _ => [XferRes.ok 1]) (fun _ _ => [XferRes.err "ECONNREFUSED"])
        (fun _ => 0) 1).outcome =
      MainOutcome.panicked ("Failed receive loop.: " ++ "ECONNREFUSED") ∧
     (mainModel ⟨"server", 5001, 50, 1⟩ (fun _ _ => AttemptRes.connOk 3)
        (fun _ _ => [XferRes.ok 1]) (fun _ _ => [XferRes.err "ECONNREFUSED"])
        (fun _ => 0) 1).connectCalls = [(16, 5001)]) :=
  ⟨⟨(midrun_transfer_failure_is_fatal ⟨"server", 5001, 50, 1⟩ (fun _ _ => AttemptRes.connOk 3)
      (fun _ _ => [XferRes.err "ECONNRESET"]) (fun _ _ => [XferRes.ok 1]) (fun _ => 0)
      1 0 3 "ECONNRESET" ("Failed send loop.: " ++ "ECONNRESET") (by decide) (by decide)
      (by decide) (by decide) (by decide) (Or.inl ⟨by decide, rfl⟩) (by decide)).2.1,
    (midrun_transfer_failure_is_fatal ⟨"server", 5001, 50, 1⟩ (fun _ _ => AttemptRes.connOk 3)
      (fun _ _ => [XferRes.err "ECONNRESET"]) (fun _ _ => [XferRes.ok 1]) (fun _ => 0)
      1 0 3 "ECONNRESET" ("Failed send loop.: " ++ "ECONNRESET") (by decide) (by decide)
      (by decide) (by decide) (by decide) (Or.inl ⟨by decide, rfl⟩) (by decide)).2.2.1⟩,
   ⟨(midrun_transfer_failure_is_fatal ⟨"server", 5001, 50, 1⟩ (fun _ _ => AttemptRes.connOk 3)
      (fun _ _ => [XferRes.ok 1]) (fun _ _ => [XferRes.err "ECONNREFUSED"]) (fun _ => 0)
      1 0 3 "ECONNREFUSED" ("Failed receive loop.: " ++ "ECONNREFUSED") (by decide) (by decide)
      (by decide) (by decide) (by decide) (Or.inr ⟨by decide, by decide, rfl⟩) (by decide)).2.1,
    (midrun_transfer_failure_is_fatal ⟨"server", 5001, 50, 1⟩ (fun _ _ => AttemptRes.connOk 3)
      (fun _ _ => [XferRes.ok 1]) (fun _ _ => [XferRes.err "ECONNREFUSED"]) (fun _ => 0)
      1 0 3 "ECONNREFUSED" ("Failed receive loop.: " ++ "ECONNREFUSED") (by decide) (by decide)
      (by decide) (by decide) (by decide) (Or.inr ⟨by decide, by decide, rfl⟩) (by decide)).2.2.1⟩⟩

/-- Every `vsock_connect` call recorded by the outer loop targets the
pair `(16, 5001)`. -/
theorem mainLoop_calls_fixed_target (n_rounds n_bytes : Nat) (connOracle : Nat → Nat → AttemptRes)
    (sendEvs recvEvs : Nat → Nat → List XferRes) (dur : Nat → Nat) :
    ∀ (fuel it : Nat) (calls : List (Nat × Nat)),
      (∀ c ∈ calls, c = ((16 : Nat), (5001 : Nat))) →
      ∀ c ∈ (mainLoop n_rounds n_bytes connOracle sendEvs recvEvs dur fuel it calls).2,
        c = (16, 5001) := by
  intro fuel
  induction fuel with
  | zero =>
    intro it calls h c hc
    rw [mainLoop] at hc
    simp only [List.mem_reverse] at hc
    exact h c hc
  | succ f ih =>
    intro it calls h c hc
    have hcons : ∀ x ∈ ((16, 5001) :: calls : List (Nat × Nat)), x = ((16 : Nat), (5001 : Nat)) := by
      intro x hx
      rcases List.mem_cons.mp hx with h1 | h2
      · exact h1
      · exact h x h2
    rw [mainLoop] at hc
    cases hres : (vsock_connect 16 5001 (connOracle it)).result with
    | ok fd =>
      rw [hres] at hc
      rcases hdd : driverRun n_rounds n_bytes (sendEvs it) (recvEvs it) dur with ⟨dres, cnt⟩
      rw [hdd] at hc
      cases dres with
      | summary smp =>
        simp only [List.mem_reverse] at hc
        exact hcons c hc
      | panic m =>
        simp only [List.mem_reverse] at hc
        exact hcons c hc
      | hung =>
        simp only [List.mem_reverse] at hc
        exact hcons c hc
    | error msg =>
      rw [hres] at hc
      exact ih (it + 1) ((16, 5001) :: calls) hcons c hc

/-- C9: `main` prints the configured peer address, but every connection
attempt targets the hard-coded vsock peer `(cid, port) = (16, 5001)`;
the configured address plays no role in the connection target or in the
run's outcome. -/
theorem connect_target_is_fixed_vsock_peer (args : Config) (connOracle : Nat → Nat → AttemptRes)
    (sendEvs recvEvs : Nat → Nat → List XferRes) (dur : Nat → Nat) (fuel : Nat) :
    (mainModel args connOracle sendEvs recvEvs dur fuel).printed =
      "Connecting to the server " ++ args.address ++ "..." ∧
    (∀ c ∈ (mainModel args connOracle sendEvs recvEvs dur fuel).connectCalls,
      c = (16, 5001)) ∧
    (∀ a : String,
      (mainModel { args with address := a } connOracle sendEvs recvEvs dur fuel).outcome =
        (mainModel args connOracle sendEvs recvEvs dur fuel).outcome ∧
      (mainModel { args with address := a } connOracle sendEvs recvEvs dur fuel).connectCalls =
        (mainModel args connOracle sendEvs recvEvs dur fuel).connectCalls) := by
  refine ⟨rfl, ?_, ?_⟩
  · intro c hc
    exact mainLoop_calls_fixed_target args.n_rounds args.n_bytes connOracle sendEvs recvEvs dur
      fuel 0 [] (by simp) c hc
  · intro a
    exact ⟨rfl, rfl⟩

end RustTcpLatency
